import Mathlib

/-!
Shallow embedding of the transaction introspection and replacement commands
of the ethereal tool: the locator branch decision, the report renderer
(including verbose log dumping), and the cancel (replacement) flow.

Conventions of the embedding:
* addresses, hashes and topic values are represented as natural numbers;
* byte strings are lists of naturals; machine overflow plays no role in the
  claims under study;
* Go slice expressions are modelled by an explicit bounds-checked slice that
  returns none where Go would panic (slice bounds out of range, capacity
  taken to equal length as produced by decoders);
* nil pointer dereference is likewise modelled by an aborted (none) result;
* external collaborators (chain RPC lookup, receipt fetch, RLP decoding of a
  transaction blob, sender recovery, reverse name resolution, signing,
  submission) are inputs of the run functions, as the spec treats them as
  out-of-scope interfaces.
-/

namespace Ethereal

/-- A transaction record: nonce, optional recipient (absent signals contract
creation), value, gas limit, gas price and payload bytes. -/
structure Transaction where
  nonce : Nat
  toAddr : Option Nat
  value : Nat
  gasLimit : Nat
  gasPrice : Nat
  data : List Nat
  deriving DecidableEq, Repr

/-- An event log: emitter address, topic values and data bytes. -/
structure Log where
  address : Nat
  topics : List Nat
  data : List Nat
  deriving DecidableEq, Repr

/-- A mined transaction receipt. -/
structure Receipt where
  status : Nat
  gasUsed : Nat
  contractAddress : Nat
  logs : List Log
  deriving DecidableEq, Repr

/-- Go slice expression xs[lo:hi] on a byte slice whose capacity equals its
length: defined when lo ≤ hi ≤ len(xs), a panic (none) otherwise. -/
def goSlice (xs : List Nat) (lo hi : Nat) : Option (List Nat) :=
  if lo ≤ hi ∧ hi ≤ xs.length then some ((xs.drop lo).take (hi - lo)) else none

/-- The verbose log-data loop of transaction info:
for j := 0; j*32 < len(data); j++ print data[j*32:(j+1)*32].
Iteration counter modelled by explicit fuel; the wrapper supplies more fuel
than the loop can consume, so fuel exhaustion is unreachable there. -/
def logWordsLoop (dat : List Nat) : Nat → Nat → Option (List (List Nat))
  | 0, j => if j * 32 < dat.length then none else some []
  | fuel + 1, j =>
    if j * 32 < dat.length then
      match goSlice dat (j * 32) ((j + 1) * 32), logWordsLoop dat fuel (j + 1) with
      | some w, some ws => some (w :: ws)
      | _, _ => none
    else some []

/-- The 32-byte words printed for one log's data, none when the loop panics
on an out-of-range slice. -/
def logDataWords (dat : List Nat) : Option (List (List Nat)) :=
  logWordsLoop dat (dat.length + 1) 0

/-- strings.TrimPrefix(s, "0x"). -/
def trim0x : List Char → List Char
  | '0' :: 'x' :: rest => rest
  | s => s

/-- The two ways the locator treats its input. -/
inductive LocateBranch where
  | identifier
  | rawBlob
  deriving DecidableEq, Repr

/-- The discriminator of transaction info: len(transactionStr) > 66 selects
the raw-transaction branch, otherwise the identifier-lookup branch. The
length is taken on the input as given, before any prefix stripping. -/
def locateBranch (s : List Char) : LocateBranch :=
  if s.length > 66 then LocateBranch.rawBlob else LocateBranch.identifier

/-- Value of one hex digit, none for a non-hex character. -/
def hexDigitVal (c : Char) : Option Nat :=
  if '0' ≤ c ∧ c ≤ '9' then some (c.toNat - '0'.toNat)
  else if 'a' ≤ c ∧ c ≤ 'f' then some (c.toNat - 'a'.toNat + 10)
  else if 'A' ≤ c ∧ c ≤ 'F' then some (c.toNat - 'A'.toNat + 10)
  else none

/-- hex.DecodeString: fails on odd length or any non-hex character. -/
def hexDecode : List Char → Option (List Nat)
  | [] => some []
  | [_] => none
  | a :: b :: rest =>
    match hexDigitVal a, hexDigitVal b, hexDecode rest with
    | some ha, some hb, some bs => some ((ha * 16 + hb) :: bs)
    | _, _, _ => none

/-- The gas price line of transaction cancel: an explicitly supplied price is
used verbatim, otherwise tx.GasPrice() + tx.GasPrice() / 9 with integer
(floor) division, as computed by the big.Int Add/Div calls. -/
def replacementGasPrice (explicit : Option Nat) (txGasPrice : Nat) : Nat :=
  match explicit with
  | some g => g
  | none => txGasPrice + txGasPrice / 9

/-- The unsigned replacement transaction descriptor handed to signing. -/
structure ReplacementTx where
  sender : Nat
  nonce : Nat
  toAddr : Option Nat
  value : Nat
  gasLimit : Nat
  gasPrice : Nat
  data : List Nat
  deriving DecidableEq, Repr

/-- Modelled from the spec: createSignedTransaction belongs to this
repository but is not among the provided sources (only its caller is). Per
spec section 4.4 step 3 and the command help text, it assembles the unsigned
transaction from the caller-set nonce and gas price globals, the given from
and to addresses, the amount (nil meaning 0), the gas limit (nil meaning the
base transfer cost of 21000 units for a zero-value empty-payload transfer)
and the data (nil meaning empty), then hands it to the external signer. -/
def createSignedTransaction (nonce gasPrice fromAddress : Nat)
    (toAddress : Option Nat) (amount : Option Nat) (gasLimitArg : Option Nat)
    (dat : Option (List Nat)) : ReplacementTx :=
  { sender := fromAddress
    nonce := nonce
    toAddr := toAddress
    value := amount.getD 0
    gasLimit := gasLimitArg.getD 21000
    gasPrice := gasPrice
    data := dat.getD [] }

/-- Externally visible steps of the cancel flow, in execution order. -/
inductive CancelEffect where
  | recoverSender
  | sign
  | submit
  deriving DecidableEq, Repr

/-- A line emitted by the cancel command. -/
inductive CancelOut where
  | diag (msg : String)
  | txHash
  deriving DecidableEq, Repr

/-- External collaborator results consumed by one cancel invocation. -/
structure CancelEnv where
  lookup : Option (Transaction × Bool)
  explicitGasPrice : Option Nat
  senderRecovery : Option Nat
  signOk : Bool
  sendOk : Bool

/-- Outcome of one cancel invocation. -/
structure CancelResult where
  exitCode : Nat
  output : List CancelOut
  effects : List CancelEffect
  replacement : Option ReplacementTx
  deriving DecidableEq, Repr

/-- The transaction cancel command body. The amount and to flag values are
bound by init but never read by Run, which always passes the recovered
sender as recipient and nil amount, gas limit and data. Diagnostic text is
suppressed in quiet mode; every cli.ErrCheck or cli.Assert failure exits 1
(cli helper behaviour modelled from the spec, section 7). -/
def cancelRun (env : CancelEnv) (quiet : Bool)
    (amountFlag toFlag : Option (List Char)) : CancelResult :=
  match env.lookup with
  | none =>
    { exitCode := 1
      output := if quiet then [] else [CancelOut.diag "Failed to obtain transaction"]
      effects := []
      replacement := none }
  | some (tx, pending) =>
    if pending then
      let gp := replacementGasPrice env.explicitGasPrice tx.gasPrice
      match env.senderRecovery with
      | none =>
        { exitCode := 1
          output := if quiet then [] else [CancelOut.diag "Failed to obtain from address"]
          effects := [CancelEffect.recoverSender]
          replacement := none }
      | some fromAddress =>
        let stx := createSignedTransaction tx.nonce gp fromAddress
          (some fromAddress) none none none
        if env.signOk then
          if env.sendOk then
            { exitCode := 0
              output := if quiet then [] else [CancelOut.txHash]
              effects := [CancelEffect.recoverSender, CancelEffect.sign, CancelEffect.submit]
              replacement := some stx }
          else
            { exitCode := 1
              output := if quiet then [] else [CancelOut.diag "Failed to send transaction"]
              effects := [CancelEffect.recoverSender, CancelEffect.sign, CancelEffect.submit]
              replacement := some stx }
        else
          { exitCode := 1
            output := if quiet then [] else [CancelOut.diag "Failed to create transaction"]
            effects := [CancelEffect.recoverSender, CancelEffect.sign]
            replacement := none }
    else
      { exitCode := 1
        output := if quiet then [] else [CancelOut.diag "Transaction has already been mined"]
        effects := []
        replacement := none }

/-- The cancel invocation reaches a successful submission: lookup succeeded,
the transaction is pending, sender recovery, signing and sending all worked. -/
def cancelSucceeds (env : CancelEnv) : Bool :=
  match env.lookup with
  | some (_, true) => env.senderRecovery.isSome && env.signOk && env.sendOk
  | _ => false

/-- One line of the transaction info report. -/
inductive ReportLine where
  | typeLine (s : String)
  | resultLine (s : String)
  | fromLine (addr : Nat) (resolved : Option String)
  | toLine (addr : Nat) (resolved : Option String)
  | contractAddressLine (addr : Nat) (resolved : Option String)
  | nonceLine (n : Nat)
  | gasLimitLine (n : Nat)
  | gasUsedLine (n : Nat)
  | gasPriceLine (n : Nat)
  | valueLine (n : Nat)
  | dataLine (d : List Nat)
  | logsHeader
  | logIndexLine (i : Nat)
  | logAddressLine (addr : Nat)
  | topicsHeader
  | topicLine (t : Nat)
  | logDataHeader
  | logDataWordLine (w : List Nat)
  deriving DecidableEq, Repr

/-- External collaborator results consumed by one rendering. -/
structure RenderEnv where
  tx : Transaction
  pending : Bool
  receiptFetch : Option Receipt
  senderRecovery : Option Nat
  resolve : Nat → Option String
  verbose : Bool

/-- The receipt variable of Run: fetched only in the not-pending branch, so
it stays nil for a pending transaction. -/
def effectiveReceipt (env : RenderEnv) : Option Receipt :=
  if env.pending then none else env.receiptFetch

/-- The Type line text: pending chosen by the pending flag, contract
creation chosen by tx.To() being nil. -/
def typeString (toAddr : Option Nat) (pending : Bool) : String :=
  if pending then
    if toAddr = none then "Pending contract creation" else "Pending transaction"
  else
    if toAddr = none then "Mined contract creation" else "Mined transaction"

/-- The Type line. -/
def typeSegment (toAddr : Option Nat) (pending : Bool) : List ReportLine :=
  [ReportLine.typeLine (typeString toAddr pending)]

/-- The Result line: printed only when the receipt is non-nil, Failed when
receipt.Status == 0, Succeeded otherwise. -/
def resultSegment : Option Receipt → List ReportLine
  | none => []
  | some r => [ReportLine.resultLine (if r.status = 0 then "Failed" else "Succeeded")]

/-- The From line: printed only when sender recovery succeeded, annotated
with the reverse-resolved name when resolution succeeds. -/
def fromSegment (senderRecovery : Option Nat) (resolve : Nat → Option String) :
    List ReportLine :=
  match senderRecovery with
  | none => []
  | some a => [ReportLine.fromLine a (resolve a)]

/-- The To or Contract address line: for a contract creation the contract
address is shown only when a receipt exists. -/
def toSegment (toAddr : Option Nat) (receipt : Option Receipt)
    (resolve : Nat → Option String) : List ReportLine :=
  match toAddr with
  | none =>
    match receipt with
    | none => []
    | some r => [ReportLine.contractAddressLine r.contractAddress (resolve r.contractAddress)]
  | some t => [ReportLine.toLine t (resolve t)]

/-- Nonce, gas limit, gas used (receipt only), gas price and value lines. -/
def numbersSegment (tx : Transaction) (receipt : Option Receipt) : List ReportLine :=
  ReportLine.nonceLine tx.nonce :: ReportLine.gasLimitLine tx.gasLimit ::
    ((match receipt with
      | some r => [ReportLine.gasUsedLine r.gasUsed]
      | none => []) ++
      [ReportLine.gasPriceLine tx.gasPrice, ReportLine.valueLine tx.value])

/-- The Data line, printed only for a non-empty payload. The textual
decoding through the signature registry is irrelevant to the claims, so the
line carries the raw payload. -/
def dataSegment (tx : Transaction) : List ReportLine :=
  if tx.data.length > 0 then [ReportLine.dataLine tx.data] else []

/-- The Topics block of one log, printed only when topics exist. -/
def logTopics (ts : List Nat) : List ReportLine :=
  if ts.length > 0 then ReportLine.topicsHeader :: ts.map ReportLine.topicLine
  else []

/-- The lines printed for one log: address, topics when present, then the
data words; none when the word loop panics. -/
def renderLog (l : Log) : Option (List ReportLine) :=
  if l.data.length > 0 then
    match logDataWords l.data with
    | none => none
    | some ws =>
      some (ReportLine.logAddressLine l.address :: logTopics l.topics ++
        ReportLine.logDataHeader :: ws.map ReportLine.logDataWordLine)
  else some (ReportLine.logAddressLine l.address :: logTopics l.topics)

/-- The lines printed for a list of logs, indexed from i. -/
def renderLogs (i : Nat) : List Log → Option (List ReportLine)
  | [] => some []
  | l :: rest =>
    match renderLog l, renderLogs (i + 1) rest with
    | some a, some b => some (ReportLine.logIndexLine i :: a ++ b)
    | _, _ => none

/-- The Logs section guard: verbose && len(receipt.Logs) > 0. The && is
short-circuit, so with verbose unset the receipt is never touched; with
verbose set and a nil receipt the field access dereferences a nil pointer
and the command aborts (none). -/
def logsSegment (verbose : Bool) (receipt : Option Receipt) :
    Option (List ReportLine) :=
  if verbose then
    match receipt with
    | none => none
    | some r =>
      if r.logs.length > 0 then
        match renderLogs 0 r.logs with
        | none => none
        | some ls => some (ReportLine.logsHeader :: ls)
      else some []
  else some []

/-- The full report of transaction info in its print order; none when the
command aborts partway (nil receipt dereference or log-data slice panic). -/
def renderInfo (env : RenderEnv) : Option (List ReportLine) :=
  match logsSegment env.verbose (effectiveReceipt env) with
  | none => none
  | some logLines =>
    some (typeSegment env.tx.toAddr env.pending ++
      resultSegment (effectiveReceipt env) ++
      fromSegment env.senderRecovery env.resolve ++
      toSegment env.tx.toAddr (effectiveReceipt env) env.resolve ++
      numbersSegment env.tx (effectiveReceipt env) ++
      dataSegment env.tx ++
      logLines)

/-- A line emitted by the info command. -/
inductive OutLine where
  | diag (msg : String)
  | rawHex
  | jsonOut
  | report (l : ReportLine)
  deriving DecidableEq, Repr

/-- External collaborator results and flags consumed by one info
invocation. -/
structure InfoEnv where
  transactionStr : List Char
  rlpDecode : List Nat → Option Transaction
  lookup : Option (Transaction × Bool)
  jsonOk : Bool
  receiptFetch : Option Receipt
  senderRecovery : Option Nat
  resolve : Nat → Option String
  quiet : Bool
  raw : Bool
  json : Bool
  verbose : Bool

/-- The locate step of transaction info: the raw branch hex-decodes the
0x-stripped input then RLP-decodes it (pending stays false there); the
identifier branch asks the node, which also reports the pending flag. -/
def locateTx (env : InfoEnv) : Except String (Transaction × Bool) :=
  match locateBranch env.transactionStr with
  | LocateBranch.rawBlob =>
    match hexDecode (trim0x env.transactionStr) with
    | none => Except.error "Failed to decode data"
    | some bs =>
      match env.rlpDecode bs with
      | none => Except.error "Failed to decode raw transaction"
      | some tx => Except.ok (tx, false)
  | LocateBranch.identifier =>
    match env.lookup with
    | none => Except.error "Failed to obtain transaction"
    | some r => Except.ok r

/-- The transaction was located: the input was non-empty and the locate
step succeeded. -/
def infoLocated (env : InfoEnv) : Bool :=
  !(env.transactionStr.length = 0 : Bool) &&
    (match locateTx env with
     | Except.ok _ => true
     | Except.error _ => false)

/-- The transaction info command body: required-argument assertion, locate,
quiet short-circuit, raw and json modes, then the rendered report. Exit
code and emitted lines are returned; none marks an abort (panic) inside
rendering. cli.Assert and cli.ErrCheck suppress their diagnostic and exit 1
in quiet mode (cli helper behaviour modelled from the spec, section 7). -/
def infoRun (env : InfoEnv) : Option (Nat × List OutLine) :=
  if env.transactionStr.length = 0 then
    some (1, if env.quiet then [] else [OutLine.diag "--transaction is required"])
  else
    match locateTx env with
    | Except.error msg => some (1, if env.quiet then [] else [OutLine.diag msg])
    | Except.ok (tx, pending) =>
      if env.quiet then some (0, [])
      else if env.raw then some (0, [OutLine.rawHex])
      else if env.json then
        if env.jsonOk then some (0, [OutLine.jsonOut])
        else some (1, [OutLine.diag "Failed to obtain JSON"])
      else
        match renderInfo
          { tx := tx, pending := pending, receiptFetch := env.receiptFetch,
            senderRecovery := env.senderRecovery, resolve := env.resolve,
            verbose := env.verbose } with
        | none => none
        | some ls => some (0, ls.map OutLine.report)


/-! Concrete inputs used by witnesses. -/

/-- A sample transaction used by the concrete witnesses. -/
def txEx : Transaction :=
  { nonce := 3, toAddr := some 5, value := 10, gasLimit := 50000,
    gasPrice := 1000000000, data := [1] }

/-- A cancel environment whose lookup reports the transaction as mined. -/
def cancelEnvMined : CancelEnv :=
  { lookup := some (txEx, false), explicitGasPrice := none,
    senderRecovery := some 9, signOk := true, sendOk := true }

/-- A cancel environment whose lookup reports the transaction as pending. -/
def cancelEnvPending : CancelEnv :=
  { lookup := some (txEx, true), explicitGasPrice := none,
    senderRecovery := some 9, signOk := true, sendOk := true }

/-- The replacement transaction the pending environment produces. -/
def replacementEx : ReplacementTx :=
  { sender := 9, nonce := 3, toAddr := some 9, value := 0, gasLimit := 21000,
    gasPrice := 1111111111, data := [] }

/-- A quiet info environment whose lookup succeeds. -/
def infoEnvQ : InfoEnv :=
  { transactionStr := ['a'], rlpDecode := fun _ => none,
    lookup := some (txEx, false), jsonOk := true, receiptFetch := none,
    senderRecovery := none, resolve := fun _ => none, quiet := true,
    raw := false, json := false, verbose := false }

/-! Claim C2: locator discriminator. -/

/-- Claim C2 counterexample: a 65-character input without the 0x prefix has
stripped-hex length 65 > 64, yet the locator treats it as an identifier
lookup, not as a raw encoded transaction. -/
theorem C2_counterexample :
    (trim0x (List.replicate 65 'a')).length = 65
    ∧ locateBranch (List.replicate 65 'a') = LocateBranch.identifier := by
  constructor
  · rfl
  · rfl

/-- Claim C2 (amended): with the 0x prefix present, stripped-hex length at
most 64 selects the identifier lookup and more than 64 selects raw
decoding; in general the discriminator is total input length greater
than 66, so without the prefix stripped lengths 65 and 66 still fall on the
identifier side. -/
theorem C2_locator_discriminator :
    (∀ r : List Char,
      locateBranch ('0' :: 'x' :: r) =
        if (trim0x ('0' :: 'x' :: r)).length ≤ 64 then LocateBranch.identifier
        else LocateBranch.rawBlob)
    ∧ (∀ s : List Char,
      locateBranch s =
        if s.length ≤ 66 then LocateBranch.identifier else LocateBranch.rawBlob) := by
  constructor
  · intro r
    have ht : trim0x ('0' :: 'x' :: r) = r := rfl
    rw [ht]
    simp only [locateBranch, List.length_cons]
    split <;> split <;> first | rfl | omega
  · intro s
    simp only [locateBranch]
    split <;> split <;> first | rfl | omega

/-! Claim C3: replacement gas price. -/

/-- Claim C3 counterexample: for gas price 1 the computed replacement price
is 1 + 1 / 9 = 1, not strictly greater than the original price. -/
theorem C3_counterexample :
    replacementGasPrice none 1 = 1 ∧ ¬ 1 < replacementGasPrice none 1 := by
  decide

/-- Claim C3 (amended): with no explicit price the replacement price is
p + p / 9, never below p, and strictly above p whenever p is at least 9;
an explicit price is used verbatim, the bump never applied. -/
theorem C3_gas_bump (p : Nat) (hp : 0 < p) :
    replacementGasPrice none p = p + p / 9
    ∧ p ≤ replacementGasPrice none p
    ∧ (9 ≤ p → p < replacementGasPrice none p)
    ∧ ∀ g : Nat, replacementGasPrice (some g) p = g := by
  refine ⟨rfl, Nat.le_add_right _ _, ?_, fun g => rfl⟩
  intro h9
  have h1 : 1 ≤ p / 9 := (Nat.one_le_div_iff (by norm_num)).mpr h9
  simp only [replacementGasPrice]
  omega

/-- Claim C3 witness: the gas bump theorem at the Scenario B price. -/
theorem C3_witness :
    0 < 1000000000
    ∧ replacementGasPrice none 1000000000 = 1111111111
    ∧ 1000000000 < replacementGasPrice none 1000000000
    ∧ replacementGasPrice (some 5) 1000000000 = 5 := by
  have h := C3_gas_bump 1000000000 (by norm_num)
  refine ⟨by norm_num, ?_, h.2.2.1 (by norm_num), h.2.2.2 5⟩
  rw [h.1]

/-! Claim C4: cancel precondition. -/

/-- Claim C4: when the lookup reports the transaction as not pending, the
cancel command exits 1 with the precondition message and performs no sender
recovery, signing or submission. -/
theorem C4_cancel_precondition (env : CancelEnv) (quiet : Bool)
    (a t : Option (List Char)) (tx : Transaction)
    (h : env.lookup = some (tx, false)) :
    (cancelRun env quiet a t).exitCode = 1
    ∧ (cancelRun env quiet a t).effects = []
    ∧ (cancelRun env quiet a t).replacement = none
    ∧ (quiet = false → (cancelRun env quiet a t).output =
        [CancelOut.diag "Transaction has already been mined"]) := by
  refine ⟨?_, ?_, ?_, ?_⟩ <;> simp [cancelRun, h]

/-- Claim C4 witness: the precondition theorem at a concrete mined
transaction. -/
theorem C4_witness :
    (cancelRun cancelEnvMined false none none).exitCode = 1
    ∧ (cancelRun cancelEnvMined false none none).effects = []
    ∧ (cancelRun cancelEnvMined false none none).output =
        [CancelOut.diag "Transaction has already been mined"] := by
  have h := C4_cancel_precondition cancelEnvMined false none none txEx rfl
  exact ⟨h.1, h.2.1, h.2.2.2 rfl⟩

/-! Claim C5: replacement transaction fields. -/

/-- Claim C5: any replacement the cancel command constructs reuses the
original nonce, is addressed to the recovered sender, moves no value,
carries no payload and has gas limit 21000. -/
theorem C5_replacement_fields (env : CancelEnv) (quiet : Bool)
    (a t : Option (List Char)) (tx : Transaction) (p : Bool) (fromA : Nat)
    (r : ReplacementTx)
    (hl : env.lookup = some (tx, p))
    (hf : env.senderRecovery = some fromA)
    (hr : (cancelRun env quiet a t).replacement = some r) :
    r.nonce = tx.nonce ∧ r.toAddr = some fromA ∧ r.value = 0
    ∧ r.data = [] ∧ r.gasLimit = 21000 := by
  cases p with
  | false => simp [cancelRun, hl] at hr
  | true =>
    cases hs : env.signOk <;> cases hd : env.sendOk <;>
      simp [cancelRun, hl, hf, hs, hd, createSignedTransaction] at hr
    all_goals subst hr
    all_goals exact ⟨rfl, rfl, rfl, rfl, rfl⟩

/-- Claim C5 witness: the field theorem at a concrete pending cancel. -/
theorem C5_witness :
    replacementEx.nonce = txEx.nonce ∧ replacementEx.toAddr = some 9
    ∧ replacementEx.value = 0 ∧ replacementEx.data = []
    ∧ replacementEx.gasLimit = 21000 :=
  C5_replacement_fields cancelEnvPending false none none txEx true 9
    replacementEx rfl rfl rfl

/-! Claim C6: verbose rendering with an absent receipt. -/

/-- Claim C6: with verbose set and the receipt variable nil (in particular
for a pending transaction), the renderer dereferences the nil receipt and
aborts; a completed verbose render therefore implies a present receipt, and
a completed render with no receipt implies verbose was unset. -/
theorem C6_verbose_receipt (env : RenderEnv) :
    (env.verbose = true → effectiveReceipt env = none → renderInfo env = none)
    ∧ ∀ out : List ReportLine, renderInfo env = some out →
        env.verbose = false ∨ effectiveReceipt env ≠ none := by
  constructor
  · intro hv hr
    simp [renderInfo, logsSegment, hv, hr]
  · intro out h
    by_cases hv : env.verbose = true
    · right
      intro hr
      simp [renderInfo, logsSegment, hv, hr] at h
    · left
      simpa using hv

/-- A verbose rendering environment for a pending transaction. -/
def renderEnvPendingVerbose : RenderEnv :=
  { tx := txEx, pending := true, receiptFetch := none,
    senderRecovery := none, resolve := fun _ => none, verbose := true }

/-- Claim C6 witness: the abort theorem at a concrete pending verbose
render. -/
theorem C6_witness : renderInfo renderEnvPendingVerbose = none :=
  (C6_verbose_receipt renderEnvPendingVerbose).1 rfl rfl

/-! Claim C9: quiet mode. -/

/-- Claim C9: in quiet mode both commands emit nothing on any path; the
info command exits 0 exactly when the transaction was located, the cancel
command exits 0 exactly when the whole cancel flow succeeded. -/
theorem C9_quiet_mode :
    (∀ env : InfoEnv, env.quiet = true →
      infoRun env = some (if infoLocated env then 0 else 1, []))
    ∧ (∀ (env : CancelEnv) (a t : Option (List Char)),
      (cancelRun env true a t).output = []
      ∧ ((cancelRun env true a t).exitCode = 0 ↔ cancelSucceeds env = true)) := by
  constructor
  · intro env hq
    by_cases h0 : env.transactionStr.length = 0
    · simp [infoRun, infoLocated, h0, hq]
    · cases hlt : locateTx env with
      | error msg => simp [infoRun, infoLocated, h0, hq, hlt]
      | ok tp =>
        obtain ⟨tx, pending⟩ := tp
        simp [infoRun, infoLocated, h0, hq, hlt]
  · intro env a t
    cases hl : env.lookup with
    | none => simp [cancelRun, cancelSucceeds, hl]
    | some tp =>
      obtain ⟨tx, p⟩ := tp
      cases p <;> cases hf : env.senderRecovery <;>
        cases hs : env.signOk <;> cases hd : env.sendOk <;>
        simp [cancelRun, cancelSucceeds, hl, hf, hs, hd]

/-- Claim C9 witness: the quiet theorem at a concrete located lookup and a
concrete mined cancel. -/
theorem C9_witness :
    infoRun infoEnvQ = some (0, [])
    ∧ (cancelRun cancelEnvMined true none none).output = [] := by
  have h1 := C9_quiet_mode.1 infoEnvQ rfl
  have h2 := (C9_quiet_mode.2 cancelEnvMined none none).1
  refine ⟨?_, h2⟩
  rw [h1]
  rfl

/-! Claim C10: ignored amount and to flags. -/

/-- Claim C10: the cancel command is insensitive to the amount and to flag
values, and any replacement it constructs is a zero-value empty-payload
transfer addressed to the recovered sender. -/
theorem C10_flags_ignored (env : CancelEnv) (quiet : Bool)
    (a t a2 t2 : Option (List Char)) :
    cancelRun env quiet a t = cancelRun env quiet a2 t2
    ∧ ∀ r : ReplacementTx, (cancelRun env quiet a t).replacement = some r →
        r.value = 0 ∧ r.data = []
        ∧ ∀ fromA : Nat, env.senderRecovery = some fromA → r.toAddr = some fromA := by
  refine ⟨rfl, ?_⟩
  intro r hr
  cases hl : env.lookup with
  | none => simp [cancelRun, hl] at hr
  | some tp =>
    obtain ⟨tx, p⟩ := tp
    cases p with
    | false => simp [cancelRun, hl] at hr
    | true =>
      cases hf : env.senderRecovery with
      | none => simp [cancelRun, hl, hf] at hr
      | some fa =>
        cases hs : env.signOk <;> cases hd : env.sendOk <;>
          simp [cancelRun, hl, hf, hs, hd, createSignedTransaction] at hr
        all_goals subst hr
        all_goals exact ⟨rfl, rfl, fun fromA hfa => by
          cases Option.some.inj hfa
          rfl⟩

/-- Claim C10 witness: the flag-insensitivity theorem at a concrete pending
cancel with nonempty flag values. -/
theorem C10_witness :
    cancelRun cancelEnvPending true (some ['1']) (some ['b']) =
      cancelRun cancelEnvPending true none none
    ∧ replacementEx.value = 0 ∧ replacementEx.toAddr = some 9 := by
  have h := C10_flags_ignored cancelEnvPending true (some ['1']) (some ['b']) none none
  have h2 := h.2 replacementEx rfl
  exact ⟨h.1, h2.1, h2.2.2 9 rfl⟩


/-! Claim C1: log data word chunking. -/

/-- With data length a multiple of 32, every iteration of the word loop
slices a full in-range 32-byte word, so the loop yields length / 32 words
of 32 bytes; the fuel hypothesis keeps the counter from exhausting. -/
lemma logWordsLoop_dvd (dat : List Nat) (hdvd : 32 ∣ dat.length) :
    ∀ (fuel j : Nat), dat.length ≤ j * 32 + fuel * 32 →
      ∃ ws, logWordsLoop dat fuel j = some ws
        ∧ ws.length = dat.length / 32 - j
        ∧ ∀ w ∈ ws, w.length = 32 := by
  obtain ⟨k, hk⟩ := hdvd
  have hdiv : dat.length / 32 = k := by
    rw [hk]
    exact Nat.mul_div_cancel_left k (by norm_num)
  intro fuel
  induction fuel with
  | zero =>
    intro j hle
    refine ⟨[], ?_, ?_, by simp⟩
    · simp only [logWordsLoop]
      rw [if_neg (by omega)]
    · simp only [List.length_nil]
      omega
  | succ fuel ih =>
    intro j hle
    by_cases hj : j * 32 < dat.length
    · have hj1 : (j + 1) * 32 ≤ dat.length := by omega
      have hslice : goSlice dat (j * 32) ((j + 1) * 32) =
          some ((dat.drop (j * 32)).take ((j + 1) * 32 - j * 32)) := by
        simp only [goSlice]
        rw [if_pos (by omega)]
      obtain ⟨ws, hws, hlen, hall⟩ := ih (j + 1) (by omega)
      refine ⟨(dat.drop (j * 32)).take ((j + 1) * 32 - j * 32) :: ws, ?_, ?_, ?_⟩
      · simp only [logWordsLoop]
        rw [if_pos hj, hslice, hws]
      · simp only [List.length_cons, hlen]
        omega
      · intro w hw
        rcases List.mem_cons.mp hw with h | h
        · subst h
          rw [List.length_take, List.length_drop]
          omega
        · exact hall w h
    · refine ⟨[], ?_, ?_, by simp⟩
      · simp only [logWordsLoop]
        rw [if_neg hj]
      · simp only [List.length_nil]
        omega

/-- With data length positive and not a multiple of 32, the word loop never
completes: it either exhausts its counter inside the data or reaches the
final partial word, whose slice upper bound falls past the end. -/
lemma logWordsLoop_not_dvd (dat : List Nat) (hnd : ¬ 32 ∣ dat.length) :
    ∀ (fuel j : Nat), j * 32 < dat.length → logWordsLoop dat fuel j = none := by
  intro fuel
  induction fuel with
  | zero =>
    intro j hj
    simp only [logWordsLoop]
    rw [if_pos hj]
  | succ fuel ih =>
    intro j hj
    simp only [logWordsLoop]
    rw [if_pos hj]
    by_cases hj1 : (j + 1) * 32 ≤ dat.length
    · have hne : (j + 1) * 32 ≠ dat.length := fun he => hnd ⟨j + 1, by omega⟩
      have hlt : (j + 1) * 32 < dat.length := lt_of_le_of_ne hj1 hne
      rw [ih (j + 1) hlt]
      cases goSlice dat (j * 32) ((j + 1) * 32) <;> rfl
    · have hgs : goSlice dat (j * 32) ((j + 1) * 32) = none := by
        simp only [goSlice]
        rw [if_neg (by omega)]
      rw [hgs]

/-- Claim C1 counterexample: for a log with 48 data bytes the loop slices
bytes 32 to 64 of a 48-byte slice, so the words are never produced and the
verbose render of a receipt holding such a log aborts instead of emitting a
truncated 16-byte second word. -/
def scenarioDLog : Log :=
  { address := 2, topics := [9], data := List.replicate 48 0 }

/-- The receipt of the Scenario D counterexample. -/
def scenarioDReceipt : Receipt :=
  { status := 1, gasUsed := 21000, contractAddress := 0, logs := [scenarioDLog] }

/-- The render environment of the Scenario D counterexample. -/
def scenarioDEnv : RenderEnv :=
  { tx := txEx, pending := false, receiptFetch := some scenarioDReceipt,
    senderRecovery := none, resolve := fun _ => none, verbose := true }

/-- Claim C1 counterexample theorem: the 48-byte data of Scenario D makes
the word loop and the whole verbose render abort. -/
theorem C1_counterexample :
    logDataWords (List.replicate 48 0) = none
    ∧ renderInfo scenarioDEnv = none := by
  constructor <;> rfl

/-- Claim C1 (amended): the renderer splits a log data whose length is a
multiple of 32 into length / 32 full 32-byte words; for any other
non-empty length it aborts on an out-of-range slice instead of truncating
the final word. -/
theorem C1_log_data_chunking (dat : List Nat) :
    (32 ∣ dat.length →
      ∃ ws, logDataWords dat = some ws ∧ ws.length = dat.length / 32
        ∧ ∀ w ∈ ws, w.length = 32)
    ∧ (¬ 32 ∣ dat.length → logDataWords dat = none) := by
  constructor
  · intro h
    obtain ⟨ws, h1, h2, h3⟩ := logWordsLoop_dvd dat h (dat.length + 1) 0 (by omega)
    exact ⟨ws, h1, by simpa using h2, h3⟩
  · intro h
    have h0 : 0 < dat.length := by
      rcases Nat.eq_zero_or_pos dat.length with hz | hp2
      · exfalso
        apply h
        rw [hz]
        exact dvd_zero 32
      · exact hp2
    exact logWordsLoop_not_dvd dat h (dat.length + 1) 0 (by omega)

/-- Claim C1 witness: the chunking theorem at a 64-byte data, which renders
exactly two full words. -/
theorem C1_witness :
    32 ∣ (List.replicate 64 (1 : Nat)).length
    ∧ ∃ ws, logDataWords (List.replicate 64 (1 : Nat)) = some ws
        ∧ ws.length = 2 ∧ ∀ w ∈ ws, w.length = 32 := by
  refine ⟨by decide, ?_⟩
  obtain ⟨ws, h1, h2, h3⟩ :=
    (C1_log_data_chunking (List.replicate 64 (1 : Nat))).1 (by decide)
  exact ⟨ws, h1, by simpa using h2, h3⟩

/-! Claims C7 and C8: Result and Type lines of the rendered report. -/

/-- Recognizer of the Result line. -/
def isResultLine : ReportLine → Bool
  | ReportLine.resultLine _ => true
  | _ => false

/-- Recognizer of the Type line. -/
def isTypeLine : ReportLine → Bool
  | ReportLine.typeLine _ => true
  | _ => false

/-- Recognizer of the lines of the Logs section. -/
def isLogLine : ReportLine → Bool
  | ReportLine.logsHeader => true
  | ReportLine.logIndexLine _ => true
  | ReportLine.logAddressLine _ => true
  | ReportLine.topicsHeader => true
  | ReportLine.topicLine _ => true
  | ReportLine.logDataHeader => true
  | ReportLine.logDataWordLine _ => true
  | _ => false

lemma isLog_not_result (x : ReportLine) (h : isLogLine x = true) :
    isResultLine x = false := by
  cases x <;> simp_all [isLogLine, isResultLine]

lemma isLog_not_type (x : ReportLine) (h : isLogLine x = true) :
    isTypeLine x = false := by
  cases x <;> simp_all [isLogLine, isTypeLine]

lemma logTopics_log_lines (ts : List Nat) :
    ∀ x ∈ logTopics ts, isLogLine x = true := by
  intro x hx
  unfold logTopics at hx
  split at hx
  · rcases List.mem_cons.mp hx with h | h
    · subst h
      rfl
    · rcases List.mem_map.mp h with ⟨t, _, rfl⟩
      rfl
  · simp at hx

lemma renderLog_log_lines (l : Log) (a : List ReportLine)
    (h : renderLog l = some a) : ∀ x ∈ a, isLogLine x = true := by
  intro x hx
  unfold renderLog at h
  split at h
  · cases hw : logDataWords l.data with
    | none => rw [hw] at h; cases h
    | some ws =>
      rw [hw] at h
      injection h with h
      subst h
      rcases List.mem_cons.mp hx with h1 | h1
      · subst h1
        rfl
      · rcases List.mem_append.mp h1 with h2 | h2
        · exact logTopics_log_lines l.topics x h2
        · rcases List.mem_cons.mp h2 with h3 | h3
          · subst h3
            rfl
          · rcases List.mem_map.mp h3 with ⟨w, _, rfl⟩
            rfl
  · injection h with h
    subst h
    rcases List.mem_cons.mp hx with h1 | h1
    · subst h1
      rfl
    · exact logTopics_log_lines l.topics x h1

lemma renderLogs_log_lines :
    ∀ (ls : List Log) (i : Nat) (a : List ReportLine), renderLogs i ls = some a →
      ∀ x ∈ a, isLogLine x = true := by
  intro ls
  induction ls with
  | nil =>
    intro i a h x hx
    simp only [renderLogs] at h
    injection h with h
    subst h
    simp at hx
  | cons l rest ih =>
    intro i a h x hx
    simp only [renderLogs] at h
    cases h1 : renderLog l with
    | none => rw [h1] at h; cases h
    | some la =>
      cases h2 : renderLogs (i + 1) rest with
      | none => rw [h1, h2] at h; cases h
      | some lb =>
        rw [h1, h2] at h
        injection h with h
        subst h
        rcases List.mem_cons.mp hx with h3 | h3
        · subst h3
          rfl
        · rcases List.mem_append.mp h3 with h4 | h4
          · exact renderLog_log_lines l la h1 x h4
          · exact ih (i + 1) lb h2 x h4

lemma logsSegment_log_lines (v : Bool) (rc : Option Receipt)
    (ls : List ReportLine) (h : logsSegment v rc = some ls) :
    ∀ x ∈ ls, isLogLine x = true := by
  intro x hx
  cases v with
  | false =>
    simp only [logsSegment, if_neg] at h
    injection h with h
    subst h
    simp at hx
  | true =>
    cases rc with
    | none =>
      simp only [logsSegment, if_pos] at h
      exact Option.noConfusion h
    | some r =>
      simp only [logsSegment, if_pos] at h
      split at h
      · cases hrl : renderLogs 0 r.logs with
        | none => rw [hrl] at h; cases h
        | some ll =>
          rw [hrl] at h
          injection h with h
          subst h
          rcases List.mem_cons.mp hx with h1 | h1
          · subst h1
            rfl
          · exact renderLogs_log_lines r.logs 0 ll hrl x h1
      · injection h with h
        subst h
        simp at hx

lemma filter_nil_of_log_lines (p : ReportLine → Bool)
    (hp : ∀ x, isLogLine x = true → p x = false)
    (ls : List ReportLine) (hl : ∀ x ∈ ls, isLogLine x = true) :
    ls.filter p = [] := by
  induction ls with
  | nil => rfl
  | cons a t ih =>
    have ha : p a = false := hp a (hl a (List.mem_cons_self a t))
    simp only [List.filter_cons, ha, Bool.false_eq_true, if_false]
    exact ih fun x hx => hl x (List.mem_cons_of_mem a hx)

lemma typeSegment_filter_result (a : Option Nat) (p : Bool) :
    (typeSegment a p).filter isResultLine = [] := rfl

lemma typeSegment_filter_type (a : Option Nat) (p : Bool) :
    (typeSegment a p).filter isTypeLine = typeSegment a p := rfl

lemma resultSegment_filter_result (rc : Option Receipt) :
    (resultSegment rc).filter isResultLine = resultSegment rc := by
  cases rc <;> rfl

lemma resultSegment_filter_type (rc : Option Receipt) :
    (resultSegment rc).filter isTypeLine = [] := by
  cases rc <;> rfl

lemma fromSegment_filter_result (sr : Option Nat) (res : Nat → Option String) :
    (fromSegment sr res).filter isResultLine = [] := by
  cases sr <;> rfl

lemma fromSegment_filter_type (sr : Option Nat) (res : Nat → Option String) :
    (fromSegment sr res).filter isTypeLine = [] := by
  cases sr <;> rfl

lemma toSegment_filter_result (a : Option Nat) (rc : Option Receipt)
    (res : Nat → Option String) : (toSegment a rc res).filter isResultLine = [] := by
  cases a <;> cases rc <;> rfl

lemma toSegment_filter_type (a : Option Nat) (rc : Option Receipt)
    (res : Nat → Option String) : (toSegment a rc res).filter isTypeLine = [] := by
  cases a <;> cases rc <;> rfl

lemma numbersSegment_filter_result (tx : Transaction) (rc : Option Receipt) :
    (numbersSegment tx rc).filter isResultLine = [] := by
  cases rc <;> rfl

lemma numbersSegment_filter_type (tx : Transaction) (rc : Option Receipt) :
    (numbersSegment tx rc).filter isTypeLine = [] := by
  cases rc <;> rfl

lemma dataSegment_filter_result (tx : Transaction) :
    (dataSegment tx).filter isResultLine = [] := by
  unfold dataSegment
  split <;> rfl

lemma dataSegment_filter_type (tx : Transaction) :
    (dataSegment tx).filter isTypeLine = [] := by
  unfold dataSegment
  split <;> rfl

/-- A completed report holds exactly the Result lines of its result segment
and exactly the Type lines of its type segment. -/
lemma renderInfo_filters (env : RenderEnv) (out : List ReportLine)
    (h : renderInfo env = some out) :
    out.filter isResultLine = resultSegment (effectiveReceipt env)
    ∧ out.filter isTypeLine = typeSegment env.tx.toAddr env.pending := by
  unfold renderInfo at h
  cases hls : logsSegment env.verbose (effectiveReceipt env) with
  | none => rw [hls] at h; cases h
  | some ls =>
    rw [hls] at h
    injection h with h
    subst h
    have hlog := logsSegment_log_lines env.verbose (effectiveReceipt env) ls hls
    constructor
    · simp only [List.filter_append, typeSegment_filter_result,
        resultSegment_filter_result, fromSegment_filter_result,
        toSegment_filter_result, numbersSegment_filter_result,
        dataSegment_filter_result,
        filter_nil_of_log_lines isResultLine isLog_not_result ls hlog,
        List.append_nil, List.nil_append]
    · simp only [List.filter_append, typeSegment_filter_type,
        resultSegment_filter_type, fromSegment_filter_type,
        toSegment_filter_type, numbersSegment_filter_type,
        dataSegment_filter_type,
        filter_nil_of_log_lines isTypeLine isLog_not_type ls hlog,
        List.append_nil, List.nil_append]

/-- Claim C7: in a completed report, a Result line occurs exactly when the
receipt is present, and it reads Failed exactly when the receipt status is
0, Succeeded otherwise. -/
theorem C7_result_line (env : RenderEnv) (out : List ReportLine)
    (h : renderInfo env = some out) :
    ((∃ s, ReportLine.resultLine s ∈ out) ↔ (effectiveReceipt env).isSome = true)
    ∧ ∀ r : Receipt, effectiveReceipt env = some r →
        ((ReportLine.resultLine "Failed" ∈ out ↔ r.status = 0)
         ∧ (ReportLine.resultLine "Succeeded" ∈ out ↔ ¬ r.status = 0)) := by
  have hf := (renderInfo_filters env out h).1
  have hmem : ∀ s, (ReportLine.resultLine s ∈ out ↔
      ReportLine.resultLine s ∈ resultSegment (effectiveReceipt env)) := by
    intro s
    rw [← hf]
    exact ⟨fun hs => List.mem_filter.mpr ⟨hs, rfl⟩,
      fun hs => (List.mem_filter.mp hs).1⟩
  cases hre : effectiveReceipt env with
  | none =>
    rw [hre] at hmem
    constructor
    · constructor
      · rintro ⟨s, hs⟩
        have := (hmem s).mp hs
        simp [resultSegment] at this
      · intro hsome
        simp at hsome
    · intro r hr
      exact Option.noConfusion hr
  | some r0 =>
    rw [hre] at hmem
    constructor
    · constructor
      · intro _
        rfl
      · intro _
        exact ⟨if r0.status = 0 then "Failed" else "Succeeded",
          (hmem _).mpr (by simp [resultSegment])⟩
    · intro r hr
      injection hr with hr
      subst hr
      constructor
      · rw [hmem "Failed"]
        by_cases h0 : r0.status = 0 <;> simp [resultSegment, h0]
      · rw [hmem "Succeeded"]
        by_cases h0 : r0.status = 0 <;> simp [resultSegment, h0]

/-- A mined transaction environment whose receipt has status 0. -/
def receiptFailed : Receipt :=
  { status := 0, gasUsed := 21000, contractAddress := 0, logs := [] }

/-- The transaction of the mined failed example. -/
def txInfoB : Transaction :=
  { nonce := 7, toAddr := some 5, value := 0, gasLimit := 21000,
    gasPrice := 100, data := [] }

/-- A render environment for a mined failed transaction. -/
def renderEnvFailed : RenderEnv :=
  { tx := txInfoB, pending := false, receiptFetch := some receiptFailed,
    senderRecovery := none, resolve := fun _ => none, verbose := false }

/-- The report the failed-transaction environment renders. -/
def renderOutFailed : List ReportLine :=
  [ReportLine.typeLine "Mined transaction", ReportLine.resultLine "Failed",
   ReportLine.toLine 5 none, ReportLine.nonceLine 7,
   ReportLine.gasLimitLine 21000, ReportLine.gasUsedLine 21000,
   ReportLine.gasPriceLine 100, ReportLine.valueLine 0]

/-- Claim C7 witness: the Result theorem at a concrete mined failed
transaction. -/
theorem C7_witness :
    ReportLine.resultLine "Failed" ∈ renderOutFailed
    ∧ (∃ s, ReportLine.resultLine s ∈ renderOutFailed) := by
  have h := C7_result_line renderEnvFailed renderOutFailed rfl
  have h2 := (h.2 receiptFailed rfl).1.mpr rfl
  exact ⟨h2, ⟨"Failed", h2⟩⟩

/-- Claim C8: a completed report has a Type line, and any Type line text is
one of the four variants, determined by the pending flag and recipient
presence. -/
theorem C8_type_line (env : RenderEnv) (out : List ReportLine)
    (h : renderInfo env = some out) :
    (∃ s, ReportLine.typeLine s ∈ out)
    ∧ ∀ s, ReportLine.typeLine s ∈ out →
        ((s = "Pending contract creation" ↔
            env.pending = true ∧ env.tx.toAddr = none)
         ∧ (s = "Pending transaction" ↔
            env.pending = true ∧ env.tx.toAddr ≠ none)
         ∧ (s = "Mined contract creation" ↔
            env.pending = false ∧ env.tx.toAddr = none)
         ∧ (s = "Mined transaction" ↔
            env.pending = false ∧ env.tx.toAddr ≠ none)) := by
  have hf := (renderInfo_filters env out h).2
  have hmem : ∀ s, (ReportLine.typeLine s ∈ out ↔
      ReportLine.typeLine s ∈ typeSegment env.tx.toAddr env.pending) := by
    intro s
    rw [← hf]
    exact ⟨fun hs => List.mem_filter.mpr ⟨hs, rfl⟩,
      fun hs => (List.mem_filter.mp hs).1⟩
  constructor
  · exact ⟨typeString env.tx.toAddr env.pending,
      (hmem _).mpr (by simp [typeSegment])⟩
  · intro s hs
    have heq : s = typeString env.tx.toAddr env.pending := by
      have := (hmem s).mp hs
      simpa [typeSegment] using this
    subst heq
    cases hp : env.pending <;> cases hta : env.tx.toAddr <;>
      simp [typeString]

/-- The transaction of the pending-creation example. -/
def txZero : Transaction :=
  { nonce := 0, toAddr := none, value := 0, gasLimit := 0,
    gasPrice := 0, data := [] }

/-- A render environment for a pending contract creation. -/
def renderEnvPendCreate : RenderEnv :=
  { tx := txZero, pending := true, receiptFetch := none, senderRecovery := none,
    resolve := fun _ => none, verbose := false }

/-- The report the pending-creation environment renders. -/
def renderOutPendCreate : List ReportLine :=
  [ReportLine.typeLine "Pending contract creation", ReportLine.nonceLine 0,
   ReportLine.gasLimitLine 0, ReportLine.gasPriceLine 0, ReportLine.valueLine 0]

/-- Claim C8 witness: the Type theorem at a concrete pending contract
creation. -/
theorem C8_witness :
    ReportLine.typeLine "Pending contract creation" ∈ renderOutPendCreate := by
  have h := C8_type_line renderEnvPendCreate renderOutPendCreate rfl
  obtain ⟨s, hs⟩ := h.1
  have hchar : s = "Pending contract creation" :=
    (h.2 s hs).1.mpr ⟨rfl, rfl⟩
  rwa [hchar] at hs

end Ethereal
